import Mathlib

/-!
Verification of the anamorphic-desqueezer repository.

The repository consists of two Python files, `desqueeze_dng.py` (a CLI
batch script) and `simple_gui.py` (a tkinter GUI wrapping the identical
per-file logic).  Both locate an `exiftool` binary, pick an output
directory, enumerate `*.dng` files, read each file's `LensModel` tag via
one exiftool invocation, and then invoke exiftool a second time with a
`-DefaultScale=1.33 1.0` argument exactly when the lens string equals
`"SIRUI Z 20mm f/1.8S"`, otherwise with copy-only arguments.

This file shallowly embeds that logic: exiftool invocations are the
argument lists the code builds (`List String`); the external world
(process results, directory contents, timestamps) is passed in
explicitly; the text parsing of `get_lens_info` is modelled over
`List Char`, matching Python's `str.split`, `str.strip` and `in`
operators; the batch loop of `main` / `process_files` is a recursion
over the list of per-file outcomes; the GUI's start-button guard is a
small labelled transition system.
-/

namespace Desqueezer

/-- The fixed relative path of the exiftool binary
(`Lib/exiftool-13.34_64/exiftool(-k).exe` in `get_exiftool_path`). -/
def exiftoolPath : String := "Lib/exiftool-13.34_64/exiftool(-k).exe"

/-- The one hardcoded anamorphic lens name tested by `process_dng_file`
(line 81 of `desqueeze_dng.py`, line 195 of `simple_gui.py`). -/
def siruiLensName : String := "SIRUI Z 20mm f/1.8S"

/-- The metadata-write argument used in the anamorphic branch
(line 88 of `desqueeze_dng.py`, line 202 of `simple_gui.py`). -/
def desqueezeArg : String := "-DefaultScale=1.33 1.0"

/-- The DefaultScale value the module docstring of `desqueeze_dng.py`
claims is written (line 6: "DefaultScale = 0.75 1.0"). -/
def docstringDefaultScale : String := "0.75 1.0"

/-- The DefaultScale value the code actually writes: the part of
`desqueezeArg` after `-DefaultScale=`. -/
def writtenDefaultScale : String := "1.33 1.0"

/-- The exiftool argument list built by `process_dng_file`: when the lens
model read from the file equals `siruiLensName` the command carries the
`-DefaultScale` write argument (lines 85-91), otherwise only the
copy/output arguments (lines 102-107).  A Python `lens_model` of `None`
is modelled as `none` and compares unequal to every string, exactly as
`None == "SIRUI Z 20mm f/1.8S"` is `False`. -/
def process_cmd (exiftool : String) (lensModel : Option String)
    (outputFile inputFile : String) : List String :=
  if lensModel = some siruiLensName then
    [exiftool, "-F", desqueezeArg, "-o", outputFile, inputFile]
  else
    [exiftool, "-F", "-o", outputFile, inputFile]

/-- What a run can observe about one directory path: whether a directory
exists there and whether it has at least one entry (`any(iterdir())`). -/
structure DirInfo where
  dirExists : Bool
  nonEmpty : Bool
deriving DecidableEq

/-- The base output directory path used by both variants. -/
def baseOutputDir : String := "TEST_IMAGE/OUTPUT"

/-- The directory path chosen by `create_output_directory`
(lines 28-43 of `desqueeze_dng.py`, lines 143-157 of `simple_gui.py`):
the timestamp-suffixed sibling when the base exists and is non-empty,
the base itself otherwise. -/
def create_output_directory (base : DirInfo) (timestamp : String) : String :=
  if base.dirExists && base.nonEmpty then
    "TEST_IMAGE/OUTPUT_" ++ timestamp
  else
    baseOutputDir

/-- The state of the chosen directory right after
`output_dir.mkdir(parents=True, exist_ok=True)`: an absent directory is
created empty; an already-existing directory keeps its contents, because
`exist_ok=True` makes `mkdir` a no-op on it. -/
def dirAfterMkdir (before : DirInfo) : DirInfo :=
  if before.dirExists then before else ⟨true, false⟩

/-- Output filename construction (line 167 of `desqueeze_dng.py`,
line 285 of `simple_gui.py`): input stem plus `_stretched.dng`. -/
def output_filename (stem : String) : String := stem ++ "_stretched.dng"

/-- The output path `output_dir / output_filename`. -/
def outputPath (outputDir stem : String) : String :=
  outputDir ++ "/" ++ output_filename stem

/-- The path of an input file found by `TEST_IMAGE.glob("*.dng")`:
`TEST_IMAGE/<stem>.dng`. -/
def inputPath (stem : String) : String := "TEST_IMAGE/" ++ stem ++ ".dng"

/-- The success/error tallies of the batch loop (lines 162-176 of
`desqueeze_dng.py`, lines 274-294 of `simple_gui.py`), as a function of
the per-file processing outcomes in enumeration order: each `true`
increments the success count and continues; the first `false` sets the
error count to 1 and breaks out of the loop. -/
def batchCounts : List Bool → Nat × Nat
  | [] => (0, 0)
  | b :: bs =>
    if b then ((batchCounts bs).1 + 1, (batchCounts bs).2)
    else (0, 1)

/-- How many files the batch loop attempts: all of them up to and
including the first failure, none after it. -/
def attemptedCount : List Bool → Nat
  | [] => 0
  | b :: bs => if b then attemptedCount bs + 1 else 1

/-- Python's `s.split(c)` for a one-character separator, over character
lists: splits into the (possibly empty) chunks between occurrences of
`c`.  `splitChar c l` is never empty. -/
def splitChar (c : Char) : List Char → List (List Char)
  | [] => [[]]
  | x :: xs =>
    if x = c then [] :: splitChar c xs
    else
      match splitChar c xs with
      | [] => [[x]]
      | r :: rs => (x :: r) :: rs

/-- Python's `split(c)[-1]`: the last chunk, i.e. the text after the
last occurrence of `c` (the whole list when `c` does not occur). -/
def lastPart (c : Char) (l : List Char) : List Char :=
  ((splitChar c l).getLast?).getD []

/-- Python's `str.strip()` over character lists: drop whitespace from
both ends. -/
def pyStrip (l : List Char) : List Char :=
  ((l.dropWhile Char.isWhitespace).reverse.dropWhile Char.isWhitespace).reverse

/-- Python's substring operator `pat in l`: `pat` occurs contiguously at
some position of `l`. -/
def containsSub (l pat : List Char) : Bool :=
  (List.range (l.length + 1)).any (fun i => decide ((l.drop i).take pat.length = pat))

/-- The phrase `get_lens_info` looks for in the exiftool output
(line 60 of `desqueeze_dng.py`, line 174 of `simple_gui.py`). -/
def lensModelLabel : List Char := "Lens Model".toList

/-- The exiftool invocation built by `get_lens_info` (lines 48-52):
one tag request (`-LensModel`) on one input path. -/
def lensInfoCmd (exiftool inputFile : String) : List String :=
  [exiftool, "-LensModel", inputFile]

/-- `get_lens_info` (lines 45-68 of `desqueeze_dng.py`, lines 159-182 of
`simple_gui.py`), as a function of the external invocation's result:
an exception (`Except.error`) is caught and turned into a warning
message plus an absent value; on captured stdout the function strips it,
tests for the phrase `Lens Model`, and if present returns the text after
the last `:` of the stripped output, stripped again
(`output.split(":")[-1].strip()`), else `None`.  The second component is
the list of warning messages printed. -/
def get_lens_info (res : Except String (List Char)) : Option String × List String :=
  match res with
  | Except.error e => (none, ["Warning: Could not read lens info: " ++ e])
  | Except.ok stdout =>
    let output := pyStrip stdout
    if containsSub output lensModelLabel then
      (some (String.mk (pyStrip (lastPart ':' output))), [])
    else
      (none, [])

/-- A sample exiftool stdout in the documented format (comment on
line 59 of `desqueeze_dng.py`). -/
def sampleLensOutput : List Char :=
  "Lens Model                      : SIRUI Z 20mm f/1.8S".toList

/-- A sample exiftool stdout whose lens-model value itself contains a
colon. -/
def sampleColonOutput : List Char :=
  "Lens Model                      : ACME 50mm T2.9: MkII".toList

/-- The per-file outcome of `process_dng_file` after the write
invocation returned (lines 114-126 of `desqueeze_dng.py`, lines 223-234
of `simple_gui.py`): the first component is the returned success flag
(`returncode == 0`); the second records whether a permission warning was
emitted (the `os.chmod` call failing is caught, logged as a warning, and
the function still returns `True`). -/
def process_result (returncode : Int) (chmodOk : Bool) : Bool × Bool :=
  if returncode = 0 then (true, !chmodOk) else (false, false)

/-- The per-file processing attempts of the batch loop, over
(stem, outcome) pairs: every file up to and including the first failure
is attempted, none after it. -/
def attemptedFiles : List (String × Bool) → List (String × Bool)
  | [] => []
  | f :: fs => if f.2 then f :: attemptedFiles fs else [f]

/-- The filesystem-affecting actions a run performs: creating the output
directory, and one exiftool write invocation per attempted input stem. -/
inductive FsAction where
  | mkdirA : String → FsAction
  | invokeTool : String → FsAction
deriving DecidableEq

/-- The `main` function of `desqueeze_dng.py` (lines 137-186), as a
function of the external world: whether exiftool exists at its fixed
path, the state of the base output directory, the current timestamp, and
the enumerated `.dng` files with their per-file processing outcomes.
Returns the process exit status and the list of filesystem actions:
exiftool missing exits 1 before any action; otherwise the output
directory is created, and if no files were found the run exits 1 having
done nothing else; otherwise the attempted files are each processed by
one tool invocation and the exit status is 1 iff the error count is
positive. -/
def mainModel (exiftoolExists : Bool) (base : DirInfo) (ts : String)
    (files : List (String × Bool)) : Nat × List FsAction :=
  if exiftoolExists = false then (1, [])
  else
    let od := create_output_directory base ts
    if files = [] then (1, [FsAction.mkdirA od])
    else
      ((if (batchCounts (files.map Prod.snd)).2 > 0 then 1 else 0),
        FsAction.mkdirA od ::
          (attemptedFiles files).map (fun f => FsAction.invokeTool f.1))

/-- The GUI state touched by `start_processing` and by the `finally`
block of `process_files` in `simple_gui.py`, plus a count of live
background worker threads. -/
structure GuiState where
  processing : Bool
  buttonText : String
  buttonEnabled : Bool
  progress : Nat
  statusText : String
  activeWorkers : Nat
deriving DecidableEq

/-- The GUI state right after `__init__` / `setup_ui`. -/
def initGuiState : GuiState :=
  ⟨false, "Process DNG Files", true, 0, "Ready to process DNG files", 0⟩

/-- `start_processing` (lines 319-333 of `simple_gui.py`): when the
`processing` flag is set it returns immediately, touching nothing;
otherwise it sets the flag, updates the button, resets the progress bar
and status label, and starts one background worker thread. -/
def start_processing (s : GuiState) : GuiState :=
  if s.processing then s
  else
    { processing := true, buttonText := "Processing...", buttonEnabled := false,
      progress := 0, statusText := "Starting processing...",
      activeWorkers := s.activeWorkers + 1 }

/-- The `finally` block of `process_files` (lines 314-317), executed
when a worker thread ends: clears the `processing` flag and restores the
button.  Only an existing worker can finish, so this is a no-op when no
worker is live. -/
def finish_processing (s : GuiState) : GuiState :=
  if s.activeWorkers = 0 then s
  else
    { s with
      processing := false
      buttonText := "Process DNG Files"
      buttonEnabled := true
      activeWorkers := s.activeWorkers - 1 }

/-- The events that touch the GUI's processing state: a click on the
process button, and a worker thread reaching its `finally` block. -/
inductive GuiEvent where
  | clickProcess : GuiEvent
  | workerFinish : GuiEvent
deriving DecidableEq

/-- One GUI transition. -/
def guiStep (s : GuiState) : GuiEvent → GuiState
  | GuiEvent.clickProcess => start_processing s
  | GuiEvent.workerFinish => finish_processing s

/-- The GUI state after a sequence of events from the initial state. -/
def guiRun (evs : List GuiEvent) : GuiState := evs.foldl guiStep initGuiState

/- ------------------------------------------------------------------ -/
/- Claim theorems.                                                     -/
/- ------------------------------------------------------------------ -/

/-- C1: the exiftool write invocation contains the horizontal-scale
argument `-DefaultScale=1.33 1.0` iff the lens model read from the file
is exactly `some "SIRUI Z 20mm f/1.8S"`; in every other case (different
string or `none`) the command is exactly the copy-only argument list.
The hypotheses record that the surrounding strings (the exiftool path
and the two file paths) are not themselves the scale argument, which
holds for the program's fixed tool path and `.dng`-suffixed paths. -/
theorem desqueeze_arg_iff_sirui_lens (ex : String) (lens : Option String)
    (out inp : String) (hex : ex ≠ desqueezeArg) (hout : out ≠ desqueezeArg)
    (hinp : inp ≠ desqueezeArg) :
    (desqueezeArg ∈ process_cmd ex lens out inp ↔ lens = some siruiLensName) ∧
    (lens ≠ some siruiLensName →
      process_cmd ex lens out inp = [ex, "-F", "-o", out, inp]) ∧
    (lens = some siruiLensName →
      process_cmd ex lens out inp = [ex, "-F", desqueezeArg, "-o", out, inp]) := by
  unfold process_cmd
  by_cases h : lens = some siruiLensName
  · simp [h]
  · rw [if_neg h]
    refine ⟨?_, fun _ => rfl, fun hc => absurd hc h⟩
    constructor
    · intro hmem
      exfalso
      simp only [List.mem_cons, List.not_mem_nil, or_false] at hmem
      rcases hmem with h1 | h1 | h1 | h1 | h1
      · exact hex h1.symm
      · exact absurd h1 (by decide)
      · exact absurd h1 (by decide)
      · exact hout h1.symm
      · exact hinp h1.symm
    · intro hc
      exact absurd hc h

/-- Witness for C1 at concrete inputs: both branches evaluated. -/
theorem desqueeze_arg_iff_sirui_lens_witness :
    (desqueezeArg ∈
        process_cmd exiftoolPath (some siruiLensName)
          "TEST_IMAGE/OUTPUT/clip001_stretched.dng" "TEST_IMAGE/clip001.dng" ↔
      (some siruiLensName : Option String) = some siruiLensName) ∧
    ((some siruiLensName : Option String) ≠ some siruiLensName →
      process_cmd exiftoolPath (some siruiLensName)
          "TEST_IMAGE/OUTPUT/clip001_stretched.dng" "TEST_IMAGE/clip001.dng" =
        [exiftoolPath, "-F", "-o", "TEST_IMAGE/OUTPUT/clip001_stretched.dng",
          "TEST_IMAGE/clip001.dng"]) ∧
    ((some siruiLensName : Option String) = some siruiLensName →
      process_cmd exiftoolPath (some siruiLensName)
          "TEST_IMAGE/OUTPUT/clip001_stretched.dng" "TEST_IMAGE/clip001.dng" =
        [exiftoolPath, "-F", desqueezeArg, "-o",
          "TEST_IMAGE/OUTPUT/clip001_stretched.dng", "TEST_IMAGE/clip001.dng"]) :=
  desqueeze_arg_iff_sirui_lens exiftoolPath (some siruiLensName)
    "TEST_IMAGE/OUTPUT/clip001_stretched.dng" "TEST_IMAGE/clip001.dng"
    (by decide) (by decide) (by decide)

/-- C2 as stated is refuted by this counterexample: with the base output
directory non-empty AND a directory already present and non-empty at the
timestamped sibling path (e.g. a leftover from an earlier run in the
same second), `create_output_directory` still chooses the timestamped
path and `mkdir(exist_ok=True)` leaves its contents alone, so the chosen
directory is NOT empty before output files are written into it. -/
theorem timestamped_dir_not_always_empty :
    let fs : String → DirInfo := fun _ => ⟨true, true⟩
    let chosen := create_output_directory (fs baseOutputDir) "20250101_000000"
    (fs baseOutputDir).dirExists = true ∧ (fs baseOutputDir).nonEmpty = true ∧
    chosen = "TEST_IMAGE/OUTPUT_" ++ "20250101_000000" ∧
    ¬ (dirAfterMkdir (fs chosen)).nonEmpty = false := by
  refine ⟨rfl, rfl, rfl, ?_⟩
  decide

/-- C2 amended: when the base output directory exists and is non-empty,
the chosen directory is the timestamp-suffixed sibling, whose name is
distinct from the base directory's name; and PROVIDED no directory
already exists at that timestamped path, it is empty (freshly created by
`mkdir`) before any output file is written into it. -/
theorem timestamped_dir_distinct_and_fresh (fs : String → DirInfo) (ts : String)
    (hex : (fs baseOutputDir).dirExists = true)
    (hne : (fs baseOutputDir).nonEmpty = true) :
    create_output_directory (fs baseOutputDir) ts = "TEST_IMAGE/OUTPUT_" ++ ts ∧
    create_output_directory (fs baseOutputDir) ts ≠ baseOutputDir ∧
    ((fs ("TEST_IMAGE/OUTPUT_" ++ ts)).dirExists = false →
      (dirAfterMkdir (fs ("TEST_IMAGE/OUTPUT_" ++ ts))).nonEmpty = false) := by
  have hchoice : create_output_directory (fs baseOutputDir) ts =
      "TEST_IMAGE/OUTPUT_" ++ ts := by
    unfold create_output_directory
    rw [hex, hne]
    rfl
  refine ⟨hchoice, ?_, ?_⟩
  · rw [hchoice]
    intro hcontra
    have hl := congrArg String.length hcontra
    have h18 : ("TEST_IMAGE/OUTPUT_" : String).length = 18 := rfl
    have h17 : (baseOutputDir).length = 17 := rfl
    rw [String.length_append] at hl
    omega
  · intro habsent
    unfold dirAfterMkdir
    rw [habsent]
    rfl

/-- Witness for the amended C2 at a concrete filesystem in which only
the base output directory exists (and is occupied). -/
theorem timestamped_dir_distinct_and_fresh_witness :
    let fs : String → DirInfo :=
      fun p => if p = baseOutputDir then ⟨true, true⟩ else ⟨false, false⟩
    (fs baseOutputDir).dirExists = true ∧ (fs baseOutputDir).nonEmpty = true ∧
    (create_output_directory (fs baseOutputDir) "20250101_000000" =
        "TEST_IMAGE/OUTPUT_" ++ "20250101_000000" ∧
      create_output_directory (fs baseOutputDir) "20250101_000000" ≠ baseOutputDir ∧
      ((fs ("TEST_IMAGE/OUTPUT_" ++ "20250101_000000")).dirExists = false →
        (dirAfterMkdir
            (fs ("TEST_IMAGE/OUTPUT_" ++ "20250101_000000"))).nonEmpty = false)) :=
  ⟨by decide, by decide,
    timestamped_dir_distinct_and_fresh
      (fun p => if p = baseOutputDir then ⟨true, true⟩ else ⟨false, false⟩)
      "20250101_000000" (by decide) (by decide)⟩

/-- C3: the batch loop stops immediately after the first failing file
(whenever the file at index `i` fails, at most `i + 1` files are
attempted), and the reported counts satisfy
success + failure = attempted ≤ total, with failure ≤ 1. -/
theorem batch_fail_fast_counts (rs : List Bool) :
    (batchCounts rs).1 + (batchCounts rs).2 = attemptedCount rs ∧
    attemptedCount rs ≤ rs.length ∧
    (batchCounts rs).2 ≤ 1 ∧
    (∀ i, rs.getD i true = false → attemptedCount rs ≤ i + 1) := by
  induction rs with
  | nil =>
    refine ⟨rfl, Nat.le_refl 0, Nat.zero_le 1, ?_⟩
    intro i h
    simp [List.getD] at h
  | cons b bs ih =>
    obtain ⟨ih1, ih2, ih3, ih4⟩ := ih
    cases b
    · refine ⟨rfl, ?_, Nat.le_refl 1, ?_⟩
      · show 1 ≤ bs.length + 1
        omega
      · intro i _
        show 1 ≤ i + 1
        omega
    · refine ⟨?_, ?_, ?_⟩
      · show (batchCounts bs).1 + 1 + (batchCounts bs).2 = attemptedCount bs + 1
        omega
      · show attemptedCount bs + 1 ≤ bs.length + 1
        omega
      · refine ⟨ih3, ?_⟩
        intro i h
        match i with
        | 0 => simp at h
        | Nat.succ j =>
          rw [List.getD_cons_succ] at h
          have := ih4 j h
          show attemptedCount bs + 1 ≤ j + 1 + 1
          omega

/-- Witness for C3 on a concrete outcome list with a failure in the
middle: `[true, false, true]` yields counts (1, 1), two attempts, and
the failure at index 1 bounds the attempts by 2. -/
theorem batch_fail_fast_counts_witness :
    (batchCounts [true, false, true]).1 + (batchCounts [true, false, true]).2 =
        attemptedCount [true, false, true] ∧
    attemptedCount [true, false, true] ≤ ([true, false, true] : List Bool).length ∧
    (batchCounts [true, false, true]).2 ≤ 1 ∧
    attemptedCount [true, false, true] ≤ 1 + 1 :=
  ⟨(batch_fail_fast_counts [true, false, true]).1,
    (batch_fail_fast_counts [true, false, true]).2.1,
    (batch_fail_fast_counts [true, false, true]).2.2.1,
    (batch_fail_fast_counts [true, false, true]).2.2.2 1 (by decide)⟩

/-- C4: for every input stem, the output filename is the stem followed
by the literal `_stretched` suffix and the `.dng` extension, and the
full output path (under whichever directory `create_output_directory`
chose) is never equal to the input path, so the output never overwrites
the input. -/
theorem output_name_never_input (stem ts : String) (base : DirInfo) :
    output_filename stem = stem ++ "_stretched" ++ ".dng" ∧
    outputPath (create_output_directory base ts) stem ≠ inputPath stem := by
  constructor
  · show stem ++ "_stretched.dng" = stem ++ "_stretched" ++ ".dng"
    rw [String.append_assoc]
    rfl
  · have hslash : ("/" : String).length = 1 := rfl
    have hsuf : ("_stretched.dng" : String).length = 14 := rfl
    have hpre : ("TEST_IMAGE/" : String).length = 11 := rfl
    have hdng : ((".dng" : String)).length = 4 := rfl
    have hbase : (baseOutputDir).length = 17 := rfl
    have h18 : ("TEST_IMAGE/OUTPUT_" : String).length = 18 := rfl
    have hod : 17 ≤ (create_output_directory base ts).length := by
      unfold create_output_directory
      split
      · rw [String.length_append]
        omega
      · omega
    intro h
    have hl := congrArg String.length h
    simp only [outputPath, inputPath, output_filename, String.length_append] at hl
    omega

/-- C5: the metadata value written in the anamorphic branch is
`1.33 1.0` (the value inside the `-DefaultScale=1.33 1.0` argument that
appears in the built command), which disagrees with the `0.75 1.0`
stated in the module docstring of `desqueeze_dng.py`. -/
theorem written_scale_contradicts_docstring :
    desqueezeArg = "-DefaultScale=" ++ writtenDefaultScale ∧
    desqueezeArg ∈
      process_cmd exiftoolPath (some siruiLensName) "out.dng" "in.dng" ∧
    writtenDefaultScale ≠ docstringDefaultScale := by
  refine ⟨rfl, ?_, by decide⟩
  simp [process_cmd]

/- Helper lemmas about the `split(":")[-1]` model. -/

/-- `splitChar` never returns the empty list of chunks. -/
theorem splitChar_ne_nil (c : Char) (l : List Char) : splitChar c l ≠ [] := by
  cases l with
  | nil => simp [splitChar]
  | cons x xs =>
    simp only [splitChar]
    by_cases h : x = c
    · simp [h]
    · rw [if_neg h]
      cases hS : splitChar c xs with
      | nil => simp
      | cons r rs => simp

/-- When the separator does not occur, `splitChar` returns the whole
list as the single chunk. -/
theorem splitChar_of_not_mem (c : Char) (l : List Char) (h : c ∉ l) :
    splitChar c l = [l] := by
  induction l with
  | nil => rfl
  | cons x xs ih =>
    have hx : ¬ x = c := fun hxc => h (hxc ▸ List.mem_cons_self x xs)
    have hm : c ∉ xs := fun hmem => h (List.mem_cons_of_mem x hmem)
    simp only [splitChar, if_neg hx, ih hm]

/-- When the separator occurs, `splitChar` returns at least two
chunks. -/
theorem two_le_splitChar_length (c : Char) (l : List Char) (h : c ∈ l) :
    2 ≤ (splitChar c l).length := by
  induction l with
  | nil => cases h
  | cons x xs ih =>
    simp only [splitChar]
    by_cases hx : x = c
    · rw [if_pos hx]
      have h1 : splitChar c xs ≠ [] := splitChar_ne_nil c xs
      have h2 : 0 < (splitChar c xs).length := List.length_pos.mpr h1
      simp only [List.length_cons]
      omega
    · rw [if_neg hx]
      have hm : c ∈ xs := by
        rcases List.mem_cons.mp h with h1 | h1
        · exact absurd h1.symm hx
        · exact h1
      have h2 := ih hm
      cases hS : splitChar c xs with
      | nil => rw [hS] at h2; simp at h2
      | cons r rs =>
        rw [hS] at h2
        simp only [List.length_cons] at h2 ⊢
        omega

/-- When the separator does not occur, the last chunk is the whole
list. -/
theorem lastPart_of_not_mem (c : Char) (l : List Char) (h : c ∉ l) :
    lastPart c l = l := by
  rw [lastPart, splitChar_of_not_mem c l h]
  rfl

/-- Unfolding of `lastPart` over a cons: a separator head or any later
separator is skipped, otherwise the head joins the last chunk. -/
theorem lastPart_cons (c x : Char) (xs : List Char) :
    lastPart c (x :: xs) =
      if x = c then lastPart c xs
      else if c ∈ xs then lastPart c xs
      else x :: lastPart c xs := by
  by_cases hx : x = c
  · rw [if_pos hx]
    unfold lastPart
    simp only [splitChar, if_pos hx]
    cases hS : splitChar c xs with
    | nil => exact absurd hS (splitChar_ne_nil c xs)
    | cons s ss => rw [List.getLast?_cons_cons]
  · rw [if_neg hx]
    by_cases hm : c ∈ xs
    · rw [if_pos hm]
      have h2 := two_le_splitChar_length c xs hm
      unfold lastPart
      simp only [splitChar, if_neg hx]
      cases hS : splitChar c xs with
      | nil => rw [hS] at h2; simp at h2
      | cons r rs =>
        cases rs with
        | nil => rw [hS] at h2; simp at h2
        | cons y ys =>
          show ((x :: r) :: y :: ys).getLast?.getD [] =
            (r :: y :: ys).getLast?.getD []
          rw [List.getLast?_cons_cons, List.getLast?_cons_cons]
    · rw [if_neg hm]
      unfold lastPart
      simp only [splitChar, if_neg hx, splitChar_of_not_mem c xs hm]
      rfl

/-- The last chunk never contains the separator. -/
theorem not_mem_lastPart (c : Char) (l : List Char) : c ∉ lastPart c l := by
  induction l with
  | nil =>
    rw [lastPart]
    simp [splitChar]
  | cons x xs ih =>
    rw [lastPart_cons]
    by_cases hx : x = c
    · rw [if_pos hx]; exact ih
    · rw [if_neg hx]
      by_cases hm : c ∈ xs
      · rw [if_pos hm]; exact ih
      · rw [if_neg hm]
        intro hcm
        rcases List.mem_cons.mp hcm with h1 | h1
        · exact hx h1.symm
        · exact ih h1

/-- When the separator occurs in `l`, the last chunk is exactly the text
after the LAST occurrence of the separator: `l` decomposes as a prefix,
the separator, and the last chunk (which contains no separator). -/
theorem lastPart_suffix (c : Char) (l : List Char) (h : c ∈ l) :
    ∃ pre, l = pre ++ c :: lastPart c l := by
  induction l with
  | nil => cases h
  | cons x xs ih =>
    rw [lastPart_cons]
    by_cases hx : x = c
    · rw [if_pos hx]
      by_cases hm : c ∈ xs
      · obtain ⟨pre, hp⟩ := ih hm
        refine ⟨x :: pre, ?_⟩
        rw [List.cons_append, ← hp]
      · refine ⟨[], ?_⟩
        rw [lastPart_of_not_mem c xs hm, List.nil_append, hx]
    · rw [if_neg hx]
      have hm : c ∈ xs := by
        rcases List.mem_cons.mp h with h1 | h1
        · exact absurd h1.symm hx
        · exact h1
      rw [if_pos hm]
      obtain ⟨pre, hp⟩ := ih hm
      refine ⟨x :: pre, ?_⟩
      rw [List.cons_append, ← hp]

/-- Elements of `dropWhile` come from the original list. -/
theorem mem_of_mem_dropWhile (p : Char → Bool) (l : List Char) (x : Char)
    (h : x ∈ l.dropWhile p) : x ∈ l := by
  induction l with
  | nil => simp [List.dropWhile] at h
  | cons a as ih =>
    rw [List.dropWhile_cons] at h
    by_cases hp : p a
    · rw [if_pos hp] at h
      exact List.mem_cons_of_mem a (ih h)
    · rw [if_neg hp] at h
      exact h

/-- Elements of a stripped list come from the original list. -/
theorem mem_of_mem_pyStrip (x : Char) (l : List Char) (h : x ∈ pyStrip l) :
    x ∈ l := by
  rw [pyStrip, List.mem_reverse] at h
  have h2 := mem_of_mem_dropWhile _ _ _ h
  rw [List.mem_reverse] at h2
  exact mem_of_mem_dropWhile _ _ _ h2

/-- C7: the metadata reader builds a one-tag request on one input path;
a failed external invocation is caught, reported only as a warning, and
yields an absent result; captured output lacking the phrase `Lens Model`
yields an absent result with no warning; captured output containing the
phrase yields the text after the last colon of the stripped output,
stripped again. -/
theorem lens_info_reader_behaviour (ex inp e : String) (out : List Char) :
    lensInfoCmd ex inp = [ex, "-LensModel", inp] ∧
    get_lens_info (Except.error e) =
      (none, ["Warning: Could not read lens info: " ++ e]) ∧
    (containsSub (pyStrip out) lensModelLabel = false →
      get_lens_info (Except.ok out) = (none, [])) ∧
    (containsSub (pyStrip out) lensModelLabel = true →
      get_lens_info (Except.ok out) =
        (some (String.mk (pyStrip (lastPart ':' (pyStrip out)))), [])) := by
  refine ⟨rfl, rfl, ?_, ?_⟩ <;> intro h <;> simp [get_lens_info, h]

/-- Witness for C7: on the documented sample output the reader returns
the SIRUI lens name with no warning, and on a failing invocation it
returns an absent value with exactly one warning. -/
theorem lens_info_reader_behaviour_witness :
    containsSub (pyStrip sampleLensOutput) lensModelLabel = true ∧
    get_lens_info (Except.ok sampleLensOutput) =
      (some (String.mk (pyStrip (lastPart ':' (pyStrip sampleLensOutput)))), []) ∧
    get_lens_info (Except.error "boom") =
      (none, ["Warning: Could not read lens info: " ++ "boom"]) :=
  ⟨by decide,
    (lens_info_reader_behaviour exiftoolPath "TEST_IMAGE/clip001.dng" "boom"
        sampleLensOutput).2.2.2 (by decide),
    (lens_info_reader_behaviour exiftoolPath "TEST_IMAGE/clip001.dng" "boom"
        sampleLensOutput).2.1⟩

/-- C9: when the output contains the phrase `Lens Model`, the value the
reader returns is the stripped text after the LAST colon of the whole
(stripped) output: the output decomposes as a prefix, a colon, and that
last chunk, which contains no colon; consequently the returned value can
never equal a stored name that itself contains a colon. -/
theorem lens_model_truncated_after_last_colon (out : List Char) (name : String)
    (hc : containsSub (pyStrip out) lensModelLabel = true) :
    (get_lens_info (Except.ok out)).1 =
      some (String.mk (pyStrip (lastPart ':' (pyStrip out)))) ∧
    (':' ∈ pyStrip out →
      ∃ pre, pyStrip out = pre ++ ':' :: lastPart ':' (pyStrip out)) ∧
    ':' ∉ lastPart ':' (pyStrip out) ∧
    (':' ∈ name.toList → (get_lens_info (Except.ok out)).1 ≠ some name) := by
  have hval : (get_lens_info (Except.ok out)).1 =
      some (String.mk (pyStrip (lastPart ':' (pyStrip out)))) := by
    simp [get_lens_info, hc]
  refine ⟨hval, fun hm => lastPart_suffix ':' (pyStrip out) hm,
    not_mem_lastPart ':' (pyStrip out), ?_⟩
  intro hname heq
  rw [hval] at heq
  have hmk : String.mk (pyStrip (lastPart ':' (pyStrip out))) = name :=
    Option.some.inj heq
  have hdata : pyStrip (lastPart ':' (pyStrip out)) = name.data := by
    cases name with
    | mk d => injection hmk
  have hmem : ':' ∈ pyStrip (lastPart ':' (pyStrip out)) := by
    rw [hdata]
    exact hname
  exact not_mem_lastPart ':' (pyStrip out)
    (mem_of_mem_pyStrip ':' (lastPart ':' (pyStrip out)) hmem)

/-- Witness for C9: a lens-model value containing a colon is truncated
to the part after its last colon, so it cannot equal the full stored
string `"ACME 50mm T2.9: MkII"`. -/
theorem lens_model_truncated_witness :
    containsSub (pyStrip sampleColonOutput) lensModelLabel = true ∧
    ':' ∈ ("ACME 50mm T2.9: MkII" : String).toList ∧
    (get_lens_info (Except.ok sampleColonOutput)).1 ≠ some "ACME 50mm T2.9: MkII" :=
  ⟨by decide, by decide,
    (lens_model_truncated_after_last_colon sampleColonOutput
        "ACME 50mm T2.9: MkII" (by decide)).2.2.2 (by decide)⟩

/- Helper lemmas about the batch error count and the GUI invariant. -/

/-- When every per-file outcome is a success the error count is zero. -/
theorem batchCounts_err_eq_zero (rs : List Bool) (h : ∀ b ∈ rs, b = true) :
    (batchCounts rs).2 = 0 := by
  induction rs with
  | nil => rfl
  | cons b bs ih =>
    have hb : b = true := h b (List.mem_cons_self b bs)
    have hbs : ∀ x ∈ bs, x = true := fun x hx => h x (List.mem_cons_of_mem b hx)
    rw [hb]
    simp only [batchCounts, if_pos rfl]
    exact ih hbs

/-- When some per-file outcome is a failure the error count is one. -/
theorem batchCounts_err_eq_one (rs : List Bool) (h : false ∈ rs) :
    (batchCounts rs).2 = 1 := by
  induction rs with
  | nil => cases h
  | cons b bs ih =>
    cases b
    · rfl
    · have hm : false ∈ bs := by
        rcases List.mem_cons.mp h with h1 | h1
        · cases h1
        · exact h1
      simp only [batchCounts, if_pos rfl]
      exact ih hm

/-- C6: the CLI exit status is 0 when every found file processes
successfully and 1 when no files are found or some file fails; with no
files found, the only filesystem action is creating the output
directory itself. -/
theorem cli_exit_status (base : DirInfo) (ts : String)
    (files : List (String × Bool)) :
    (files ≠ [] → (∀ f ∈ files, f.2 = true) →
      (mainModel true base ts files).1 = 0) ∧
    (files = [] →
      mainModel true base ts files =
        (1, [FsAction.mkdirA (create_output_directory base ts)])) ∧
    ((∃ f ∈ files, f.2 = false) → (mainModel true base ts files).1 = 1) := by
  refine ⟨?_, ?_, ?_⟩
  · intro hne hall
    have h0 : (batchCounts (files.map Prod.snd)).2 = 0 := by
      refine batchCounts_err_eq_zero _ ?_
      intro b hb
      rcases List.mem_map.mp hb with ⟨f, hf, rfl⟩
      exact hall f hf
    simp [mainModel, hne, h0]
  · intro he
    simp [mainModel, he]
  · rintro ⟨f, hf, hfalse⟩
    have hne : files ≠ [] := by
      intro h
      rw [h] at hf
      cases hf
    have h1 : false ∈ files.map Prod.snd :=
      List.mem_map.mpr ⟨f, hf, hfalse⟩
    have h2 := batchCounts_err_eq_one _ h1
    simp [mainModel, hne, h2]

/-- Witness for C6 at three concrete runs: all-success, no files found,
and one failing file. -/
theorem cli_exit_status_witness :
    (mainModel true ⟨false, false⟩ "20250101_000000"
        [("clip001", true), ("clip002", true)]).1 = 0 ∧
    mainModel true ⟨false, false⟩ "20250101_000000" [] =
      (1, [FsAction.mkdirA (create_output_directory ⟨false, false⟩
            "20250101_000000")]) ∧
    (mainModel true ⟨false, false⟩ "20250101_000000" [("clip001", false)]).1 = 1 :=
  ⟨(cli_exit_status ⟨false, false⟩ "20250101_000000"
      [("clip001", true), ("clip002", true)]).1 (by decide) (by decide),
    (cli_exit_status ⟨false, false⟩ "20250101_000000" []).2.1 rfl,
    (cli_exit_status ⟨false, false⟩ "20250101_000000" [("clip001", false)]).2.2
      ⟨("clip001", false), by decide, rfl⟩⟩

/-- C8: a file whose write invocation exits 0 is counted a success
whatever the subsequent `chmod` does; a failing `chmod` only adds a
warning and never flips the result, while a succeeding one adds no
warning. -/
theorem chmod_failure_still_success (rc : Int) (chmodOk : Bool) (h : rc = 0) :
    (process_result rc chmodOk).1 = true ∧
    (process_result rc true).1 = (process_result rc false).1 ∧
    (process_result rc false).2 = true ∧
    (process_result rc true).2 = false := by
  subst h
  cases chmodOk <;> simp [process_result]

/-- Witness for C8 at exit code 0 with a failing `chmod`. -/
theorem chmod_failure_still_success_witness :
    (process_result 0 false).1 = true ∧
    (process_result 0 true).1 = (process_result 0 false).1 ∧
    (process_result 0 false).2 = true ∧
    (process_result 0 true).2 = false :=
  chmod_failure_still_success 0 false rfl

/-- The GUI invariant: exactly one worker thread is live while the
`processing` flag is set, none otherwise. -/
def guiInv (s : GuiState) : Prop :=
  s.activeWorkers = if s.processing then 1 else 0

/-- Every GUI transition preserves the invariant. -/
theorem guiStep_preserves (s : GuiState) (e : GuiEvent) (h : guiInv s) :
    guiInv (guiStep s e) := by
  cases e
  · show guiInv (start_processing s)
    unfold start_processing
    by_cases hp : s.processing
    · rw [if_pos hp]
      exact h
    · rw [if_neg hp]
      unfold guiInv at h ⊢
      rw [if_neg hp] at h
      simp [h]
  · show guiInv (finish_processing s)
    unfold finish_processing
    by_cases hw : s.activeWorkers = 0
    · rw [if_pos hw]
      exact h
    · rw [if_neg hw]
      unfold guiInv at h ⊢
      by_cases hp : s.processing
      · rw [if_pos hp] at h
        simp [h]
      · rw [if_neg hp] at h
        exact absurd h hw

/-- The invariant holds in every reachable GUI state. -/
theorem guiRun_inv (evs : List GuiEvent) : guiInv (guiRun evs) := by
  suffices h : ∀ s, guiInv s → guiInv (evs.foldl guiStep s) by
    refine h initGuiState ?_
    unfold guiInv initGuiState
    simp
  induction evs with
  | nil => intro s hs; exact hs
  | cons e es ih =>
    intro s hs
    exact ih (guiStep s e) (guiStep_preserves s e hs)

/-- C10: clicking the process button while a batch is running (the
`processing` flag set) changes nothing at all — no field of the GUI
state moves and no new worker thread starts; and along every event
sequence from the initial state the number of live worker threads
matches the `processing` flag (reset only when the running batch
finishes), so at most one batch worker exists at any time. -/
theorem start_processing_reentrancy (s : GuiState) (evs : List GuiEvent)
    (h : s.processing = true) :
    start_processing s = s ∧
    (guiRun evs).activeWorkers =
      (if (guiRun evs).processing then 1 else 0) ∧
    (guiRun evs).activeWorkers ≤ 1 := by
  have hinv := guiRun_inv evs
  unfold guiInv at hinv
  refine ⟨?_, hinv, ?_⟩
  · unfold start_processing
    rw [h]
    simp
  · rw [hinv]
    split <;> simp

/-- Witness for C10: a mid-processing state is left untouched by a
second click, and a concrete double-click event sequence keeps at most
one live worker. -/
theorem start_processing_reentrancy_witness :
    start_processing
        ⟨true, "Processing...", false, 0, "Starting processing...", 1⟩ =
      ⟨true, "Processing...", false, 0, "Starting processing...", 1⟩ ∧
    (guiRun [GuiEvent.clickProcess, GuiEvent.clickProcess,
        GuiEvent.workerFinish]).activeWorkers =
      (if (guiRun [GuiEvent.clickProcess, GuiEvent.clickProcess,
          GuiEvent.workerFinish]).processing then 1 else 0) ∧
    (guiRun [GuiEvent.clickProcess, GuiEvent.clickProcess,
        GuiEvent.workerFinish]).activeWorkers ≤ 1 :=
  start_processing_reentrancy
    ⟨true, "Processing...", false, 0, "Starting processing...", 1⟩
    [GuiEvent.clickProcess, GuiEvent.clickProcess, GuiEvent.workerFinish] rfl
